import Mathlib

/-!
Verification development for the food-analyst bot.

The definitions below are a shallow embedding of the JavaScript source:

* `src/bot.js` — the Telegram bot: the correction interpreter
  (`parseUserCorrection`, `getBaseNutrition`, `calculateServingMultiplier`,
  `estimateNutrition`), the per-chat/per-day nutrition ledger
  (`addFoodEntry`, `removeFoodEntryByIndex`, `getTodayTotals`), the
  message-association index (`saveMessageAssociation`,
  `loadMessageAssociations`), and the reply-driven correction and removal
  paths (`updateNutritionByMessageId`, `processCorrection`,
  `handleRemovalCommand`).
* the dashboard server (`src/unnamed/part_002`) — the leaderboard endpoint
  (`maskUserName`, the per-scope totals loop, scoring, sorting, ranking).

Modelling conventions:

* JavaScript numbers are modelled as `ℚ`.  All concrete values exercised by
  the claims are exactly representable, and every arithmetic step involved
  (multiplication by small multipliers, `Math.round`, `toFixed(1)`)
  coincides between IEEE doubles and exact rationals on those values.
  `ℚ` division by zero yields `0` where JavaScript yields `±Infinity`;
  claims touching division therefore carry nonzero-divisor hypotheses.
* `Math.round` rounds half toward `+∞`, which is `⌊x + 1/2⌋` (`jsRound`).
  `x.toFixed(1)` followed by `parseFloat` is `round1`.
* JavaScript objects used as string-keyed maps are modelled as insertion
  ordered association lists (`alGet`/`alSet`/`alDelete`); keys are unique in
  any object produced by `JSON.parse`, matching the `Nodup` hypotheses used
  where key enumeration matters.
* A possibly-absent numeric object field is `Option ℚ`; adding an absent
  field (`undefined`) to a number yields `NaN` in JavaScript, modelled by
  `none`-propagation in `addOptQ`.  `entry.fiber || 0` is `Option.getD 0`.
* Strings are processed as `List Char`; the source only ever feeds ASCII
  through the relevant paths, where Lean's `Char.toLower`/`Char.toUpper`
  agree with JavaScript.
-/

/-! ### JavaScript string primitives -/

/-- The characters matched by the `\s` regex class (ASCII part) and by
`String.prototype.trim`. -/
def jsWhitespace (c : Char) : Bool :=
  c = ' ' || c = '\t' || c = '\n' || c = '\r' || c = '\x0b' || c = '\x0c'

/-- `String.prototype.trim`: drop leading and trailing whitespace. -/
def trimJs (l : List Char) : List Char :=
  ((l.dropWhile jsWhitespace).reverse.dropWhile jsWhitespace).reverse

/-- `String.prototype.toLowerCase` (ASCII). -/
def lowerJs (l : List Char) : List Char := l.map Char.toLower

/-- The `\w` regex class: `[A-Za-z0-9_]`. -/
def isWordChar (c : Char) : Bool := c.isAlphanum || c = '_'

/-- `s.replace(/^\W+|\W+$/g, '')`: strip the leading and the trailing run of
non-word characters. -/
def stripNonWordEnds (l : List Char) : List Char :=
  ((l.dropWhile (fun c => !isWordChar c)).reverse.dropWhile
      (fun c => !isWordChar c)).reverse

/-- `hay.includes(needle)`. -/
def containsSub (hay needle : List Char) : Bool :=
  match hay with
  | [] => needle.isEmpty
  | _ :: t => needle.isPrefixOf hay || containsSub t needle

/-- `hay.replace(pat, '')` for a plain-string `pat`: remove the first
occurrence (JavaScript `replace` with a string replaces only the first). -/
def removeFirstOcc (hay pat : List Char) : List Char :=
  match hay, pat with
  | h, [] => h
  | [], _ => []
  | c :: t, p => if p.isPrefixOf (c :: t) then (c :: t).drop p.length
                 else c :: removeFirstOcc t p

/-- `s.charAt(0).toUpperCase() + s.slice(1)`. -/
def capitalizeJs (l : List Char) : List Char :=
  match l with
  | [] => []
  | c :: t => c.toUpper :: t

/-- Decimal value of a digit list. -/
def digitsToNat (l : List Char) : ℕ :=
  l.foldl (fun a c => a * 10 + (c.toNat - 48)) 0

/-- `parseFloat` applied to `intDs` + "." + `fracDs` (both digit strings). -/
def decQty (intDs fracDs : List Char) : ℚ :=
  (digitsToNat intDs : ℚ) + (digitsToNat fracDs : ℚ) / (10 : ℚ) ^ fracDs.length

/-- `Math.round`: round half toward `+∞`. -/
def jsRound (q : ℚ) : ℤ := ⌊q + 1/2⌋

/-- `x.toFixed(1)` followed by `parseFloat`. -/
def round1 (q : ℚ) : ℚ := (jsRound (q * 10) : ℚ) / 10

/-- `Math.max(0, z)`. -/
def jsMax0 (z : ℤ) : ℤ := max 0 z

/-- Canonical JavaScript rendering `${parseFloat(intDs + "." + fracDs)}` of
the quantity captured by the serving-size regex: leading zeros of the integer
part and trailing zeros of the fraction are dropped, and the decimal point is
dropped when the fraction vanishes.  (This is the shortest round-trip form
JavaScript prints for any decimal literal of up to 15 significant digits.) -/
def jsQtyStr (intDs fracDs : List Char) : String :=
  let ip := intDs.dropWhile (· = '0')
  let ip := if ip.isEmpty then ['0'] else ip
  let fp := (fracDs.reverse.dropWhile (· = '0')).reverse
  if fp.isEmpty then String.mk ip else String.mk (ip ++ '.' :: fp)

/-- Digits of a natural number, fuel-driven so the kernel can reduce it. -/
def natDigitsAux : ℕ → ℕ → List Char
  | 0, _ => []
  | fuel + 1, n =>
    if n = 0 then [] else natDigitsAux fuel (n / 10) ++ [Char.ofNat (48 + n % 10)]

/-- Decimal rendering of a natural number. -/
def natToStr (n : ℕ) : String :=
  if n = 0 then "0" else String.mk (natDigitsAux (n + 1) n)

/-- Decimal rendering of an integer (JavaScript `${n}` for integral values). -/
def intToStr (z : ℤ) : String :=
  if z < 0 then "-" ++ natToStr z.natAbs else natToStr z.natAbs

/-! ### CorrectionInterpreter (`parseUserCorrection` and helpers) -/

/-- The alternatives of the serving-size regex
`/(\d+(?:\.\d+)?)\s*(ml|l|g|kg|oz|cup|cups|tbsp|tsp)/`, in source order
(JavaScript alternation takes the first alternative that matches). -/
def unitNames : List String :=
  ["ml", "l", "g", "kg", "oz", "cup", "cups", "tbsp", "tsp"]

/-- A successful regex match: `full` is `match[0]`, `intDs`/`fracDs` the
digits of `match[1]`, `unit` is `match[2]`. -/
structure QtyTok where
  full : List Char
  intDs : List Char
  fracDs : List Char
  unit : String
deriving DecidableEq

/-- Match the serving-size regex anchored at the head of `l`.  Greedy digit
and whitespace munching is equivalent to the regex's backtracking here
because no unit alternative starts with a digit or whitespace character. -/
def matchQtyAt (l : List Char) : Option QtyTok :=
  let intDs := l.takeWhile Char.isDigit
  let r1 := l.dropWhile Char.isDigit
  if intDs.isEmpty then none
  else
    let fr : List Char × List Char :=
      match r1 with
      | '.' :: t =>
        let fs := t.takeWhile Char.isDigit
        if fs.isEmpty then ([], r1) else ('.' :: fs, t.dropWhile Char.isDigit)
      | _ => ([], r1)
    let ws := fr.2.takeWhile jsWhitespace
    let r3 := fr.2.dropWhile jsWhitespace
    match unitNames.find? (fun u => u.toList.isPrefixOf r3) with
    | none => none
    | some u => some ⟨intDs ++ fr.1 ++ ws ++ u.toList, intDs, fr.1.drop 1, u⟩

/-- Leftmost match of the serving-size regex (`lowerInput.match(...)`). -/
def scanQty : List Char → Option QtyTok
  | [] => none
  | c :: t =>
    match matchQtyAt (c :: t) with
    | some m => some m
    | none => scanQty t

/-- One row of the static food table (per standard serving). -/
structure BaseRow where
  calories : ℚ
  protein : ℚ
  carbs : ℚ
  fat : ℚ
deriving DecidableEq

/-- The static `foodDatabase` of `getBaseNutrition`, in source order. -/
def foodDatabase : List (String × BaseRow) :=
  [("Coffee", ⟨5, 0.3, 0, 0⟩),
   ("Coke", ⟨140, 0, 39, 0⟩),
   ("Cola", ⟨140, 0, 39, 0⟩),
   ("Apple", ⟨95, 0.5, 25, 0.3⟩),
   ("Banana", ⟨105, 1.3, 27, 0.4⟩),
   ("Orange", ⟨62, 1.2, 15, 0.2⟩),
   ("Bread", ⟨80, 3, 15, 1⟩),
   ("Rice", ⟨205, 4, 45, 0.4⟩),
   ("Chicken", ⟨165, 31, 0, 3.6⟩),
   ("Beef", ⟨250, 26, 0, 15⟩),
   ("Fish", ⟨120, 22, 0, 3⟩),
   ("Salad", ⟨15, 1, 3, 0.2⟩),
   ("Pasta", ⟨200, 7, 43, 1⟩),
   ("Pizza", ⟨285, 12, 36, 10⟩),
   ("Burger", ⟨295, 15, 30, 12⟩),
   ("Sandwich", ⟨220, 9, 25, 9⟩),
   ("Milk", ⟨103, 8, 12, 2.4⟩),
   ("Cheese", ⟨113, 7, 1, 9⟩),
   ("Yogurt", ⟨59, 10, 3.6, 0.4⟩),
   ("Ice cream", ⟨207, 3.5, 24, 11⟩),
   ("Cake", ⟨237, 2.3, 33, 10⟩),
   ("Cookie", ⟨78, 0.9, 10, 4⟩),
   ("Chocolate", ⟨155, 1.5, 15, 9⟩),
   ("Water", ⟨0, 0, 0, 0⟩),
   ("Tea", ⟨2, 0, 0.5, 0⟩),
   ("Juice", ⟨110, 0.5, 26, 0.3⟩),
   ("Soda", ⟨140, 0, 39, 0⟩),
   ("Beer", ⟨153, 1.6, 13, 0⟩),
   ("Wine", ⟨125, 0.1, 3.8, 0⟩),
   ("Default", ⟨100, 5, 15, 3⟩)]

/-- The fallback `foodDatabase['Default']` row. -/
def defaultBaseRow : BaseRow := ⟨100, 5, 15, 3⟩

/-- The key-scanning loop of `getBaseNutrition`: first entry whose key is a
case-insensitive substring of the food name. -/
def findBaseRow : List (String × BaseRow) → String → BaseRow
  | [], _ => defaultBaseRow
  | kv :: t, name =>
    if containsSub (lowerJs name.toList) (lowerJs kv.1.toList) = true then kv.2
    else findBaseRow t name

/-- `getBaseNutrition(foodName)`. -/
def getBaseNutrition (foodName : String) : BaseRow :=
  findBaseRow foodDatabase foodName

/-- The `unitMultipliers` table of `calculateServingMultiplier`. -/
def unitMultipliers (quantity : ℚ) : List (String × ℚ) :=
  [("ml", quantity / 250),
   ("l", quantity * 4),
   ("g", quantity / 100),
   ("kg", quantity * 10),
   ("oz", quantity / 4),
   ("cup", quantity),
   ("cups", quantity),
   ("tbsp", quantity / 16),
   ("tsp", quantity / 48),
   ("serving", 1)]

/-- First-matching-key lookup in a `(String × ℚ)` table. -/
def lookupQ : List (String × ℚ) → String → Option ℚ
  | [], _ => none
  | kv :: t, k => if kv.1 = k then some kv.2 else lookupQ t k

/-- `calculateServingMultiplier(quantity, unit)`; the trailing `|| 1` turns a
missing key or a zero multiplier (both falsy) into `1`. -/
def calculateServingMultiplier (quantity : ℚ) (unit : String) : ℚ :=
  match lookupQ (unitMultipliers quantity) unit with
  | none => 1
  | some m => if m = 0 then 1 else m

/-- The macro fields produced by `estimateNutrition`. -/
structure MacroEst where
  calories : ℚ
  protein : ℚ
  carbs : ℚ
  fat : ℚ
deriving DecidableEq

/-- `estimateNutrition(foodName, quantity, unit)`: scale the base row and
round (calories to an integer, the rest to one decimal). -/
def estimateNutrition (foodName : String) (quantity : ℚ) (unit : String) :
    MacroEst :=
  let b := getBaseNutrition foodName
  let m := calculateServingMultiplier quantity unit
  ⟨(jsRound (b.calories * m) : ℚ), round1 (b.protein * m),
    round1 (b.carbs * m), round1 (b.fat * m)⟩

/-- The record returned by `parseUserCorrection` (all fields present). -/
structure Correction where
  food_name : String
  calories : ℚ
  protein : ℚ
  carbs : ℚ
  fat : ℚ
  serving_size : String
deriving DecidableEq

/-- The food-name residue before the `|| 'Unknown food'` default: the
lowercased input with the matched serving-size token removed, trimmed, and
stripped of non-word characters at both ends. -/
def cleanedResidual (lowerInput : List Char) (m : Option QtyTok) : List Char :=
  stripNonWordEnds
    (match m with
     | some tok => trimJs (removeFirstOcc lowerInput tok.full)
     | none => lowerInput)

/-- The residue with the `'Unknown food'` default applied. -/
def residualFoodName (lowerInput : List Char) (m : Option QtyTok) : List Char :=
  let c := cleanedResidual lowerInput m
  if c.isEmpty then "Unknown food".toList else c

/-- `input.toLowerCase().trim()`. -/
def normalizeInput (input : String) : List Char := trimJs (lowerJs input.toList)

/-- `parseUserCorrection(input)`. -/
def parseUserCorrection (input : String) : Correction :=
  let lowerInput := normalizeInput input
  let m := scanQty lowerInput
  let quantity : ℚ :=
    match m with
    | some tok => decQty tok.intDs tok.fracDs
    | none => 1
  let unit : String :=
    match m with
    | some tok => tok.unit
    | none => "serving"
  let servingSize : String :=
    match m with
    | some tok => jsQtyStr tok.intDs tok.fracDs ++ tok.unit
    | none => "Standard serving"
  let foodName := String.mk (capitalizeJs (residualFoodName lowerInput m))
  let est := estimateNutrition foodName quantity unit
  ⟨foodName, est.calories, est.protein, est.carbs, est.fat, servingSize⟩

/-! ### Data model: entries, ledgers, associations, goals -/

/-- One stored food object, as the JavaScript code builds it.  `timestamp` is
the field `addFoodEntry` stamps (the entry's creation-time identity anchor);
it is `Option` because the raw vision output spread into the ledger and into
association snapshots carries no `timestamp` key.  An `Option` numeric field
models a possibly-absent (`undefined`) object field. -/
structure JsFood where
  timestamp : Option String
  food_name : String
  calories : Option ℚ
  protein : Option ℚ
  carbs : Option ℚ
  fat : Option ℚ
  fiber : Option ℚ
  hydration : Option ℚ
  serving_size : String
  confidence : String
deriving DecidableEq

/-- Insertion-ordered string-keyed map lookup (`obj[k]`). -/
def alGet {α : Type} : List (String × α) → String → Option α
  | [], _ => none
  | kv :: t, k => if kv.1 = k then some kv.2 else alGet t k

/-- Map update (`obj[k] = v`): overwrite in place, or append a new key. -/
def alSet {α : Type} : List (String × α) → String → α → List (String × α)
  | [], k, v => [(k, v)]
  | kv :: t, k, v => if kv.1 = k then (k, v) :: t else kv :: alSet t k v

/-- Key removal (`delete obj[k]`). -/
def alDelete {α : Type} : List (String × α) → String → List (String × α)
  | [], _ => []
  | kv :: t, k => if kv.1 = k then t else kv :: alDelete t k

/-- The `nutrition_data` blob: scope id → date (YYYY-MM-DD) → entry list. -/
abbrev NutritionData : Type := List (String × List (String × List JsFood))

/-- One value of the `message_associations` blob: the scope, the nutrition
snapshot taken when the outbound message was sent, and the recording time. -/
structure Assoc where
  chatId : String
  nutritionData : JsFood
  timestamp : String
deriving DecidableEq

/-- The `message_associations` blob: outbound message id → association. -/
abbrev Associations : Type := List (String × Assoc)

/-- The six goal values (`loadGoals` fills defaults when unset). -/
structure Goals where
  calories : ℚ
  protein : ℚ
  carbs : ℚ
  fat : ℚ
  fiber : ℚ
  hydration : ℚ
deriving DecidableEq

/-- The default goals of `loadGoals`. -/
def defaultGoals : Goals := ⟨2000, 150, 250, 70, 25, 2000⟩

/-! ### NutritionLedger operations (`src/bot.js`) -/

/-- `addFoodEntry(chatId, nutrition)`: create the scope and date containers
on demand and push `{timestamp: new Date().toISOString(), ...nutrition}` at
the end of today's list.  Because the spread comes last, a `timestamp`
already present on `nutrition` would win over the fresh stamp. -/
def addFoodEntry (data : NutritionData) (chatId : String) (nutrition : JsFood)
    (today now : String) : NutritionData :=
  let dates := (alGet data chatId).getD []
  let entries := (alGet dates today).getD []
  let entry := { nutrition with timestamp := some (nutrition.timestamp.getD now) }
  alSet data chatId (alSet dates today (entries ++ [entry]))

/-- `removeFoodEntryByIndex(chatId, index)`: `false` (here `none`) when the
scope or the date is absent or the index is out of range, otherwise the
spliced-out entry together with the saved ledger. -/
def removeFoodEntryByIndex (data : NutritionData) (chatId today : String)
    (index : ℤ) : Option JsFood × NutritionData :=
  match alGet data chatId with
  | none => (none, data)
  | some dates =>
    match alGet dates today with
    | none => (none, data)
    | some entries =>
      if 0 ≤ index ∧ index < entries.length then
        (entries[index.toNat]?,
          alSet data chatId (alSet dates today (entries.eraseIdx index.toNat)))
      else (none, data)

/-- The running totals object of `getTodayTotals`.  The four macro fields are
`Option ℚ` because `totals.calories += entry.calories` on an entry missing
`calories` produces `NaN` (modelled `none`), while fiber and hydration are
accumulated through `entry.fiber || 0` and stay numeric. -/
structure Totals where
  calories : Option ℚ
  protein : Option ℚ
  carbs : Option ℚ
  fat : Option ℚ
  fiber : ℚ
  hydration : ℚ
deriving DecidableEq

/-- JavaScript `+` on possibly-`NaN`/`undefined` operands: any absent side
poisons the result. -/
def addOptQ (a b : Option ℚ) : Option ℚ :=
  match a, b with
  | some x, some y => some (x + y)
  | _, _ => none

/-- The all-zero totals object returned when the scope has no entries. -/
def zeroTotals : Totals := ⟨some 0, some 0, some 0, some 0, 0, 0⟩

/-- The body of the `forEach` accumulation loop in `getTodayTotals`. -/
def botAccum (t : Totals) (e : JsFood) : Totals :=
  ⟨addOptQ t.calories e.calories, addOptQ t.protein e.protein,
    addOptQ t.carbs e.carbs, addOptQ t.fat e.fat,
    t.fiber + e.fiber.getD 0, t.hydration + e.hydration.getD 0⟩

/-- The accumulation of `getTodayTotals` over an entry list. -/
def botSumList (l : List JsFood) : Totals := l.foldl botAccum zeroTotals

/-- `getTodayTotals(chatId)`: the all-zero object when the scope or date is
absent, the accumulated totals otherwise. -/
def getTodayTotals (data : NutritionData) (chatId today : String) : Totals :=
  match alGet data chatId with
  | none => zeroTotals
  | some dates =>
    match alGet dates today with
    | none => zeroTotals
    | some entries => botSumList entries

/-- The entry list the ledger holds for a scope and date (empty when either
container is absent); used to state frame conditions. -/
def entriesAt (data : NutritionData) (chatId today : String) : List JsFood :=
  (alGet ((alGet data chatId).getD []) today).getD []

/-! ### MessageAssociationIndex (`src/bot.js`) -/

/-- `saveMessageAssociation(messageId, chatId, nutritionData)`: store
`{chatId, nutritionData, timestamp: new Date().toISOString()}` under the
message id (last write wins). -/
def saveMessageAssociation (assocs : Associations) (messageId chatId : String)
    (nutritionData : JsFood) (now : String) : Associations :=
  alSet assocs messageId ⟨chatId, nutritionData, now⟩

/-- Reading `loadMessageAssociations()[messageId]`. -/
def resolveAssociation (assocs : Associations) (messageId : String) :
    Option Assoc :=
  alGet assocs messageId

/-! ### CorrectionEngine (`src/bot.js`) -/

/-- The fingerprint used by `updateNutritionByMessageId` to locate the ledger
row: food name plus the four macro values of the association snapshot. -/
def entryMatchesSnapshot (e snap : JsFood) : Prop :=
  e.food_name = snap.food_name ∧ e.calories = snap.calories ∧
    e.protein = snap.protein ∧ e.carbs = snap.carbs ∧ e.fat = snap.fat

instance (e snap : JsFood) : Decidable (entryMatchesSnapshot e snap) := by
  unfold entryMatchesSnapshot; infer_instance

/-- The in-place assignment
`entries[index] = {...entries[index], ...updatedNutritionData,
timestamp: new Date().toISOString()}`: the six patch fields overwrite, the
timestamp is re-stamped, everything else (fiber, hydration, confidence) is
carried over from the old entry. -/
def applyCorrectionPatch (e : JsFood) (patch : Correction) (now : String) :
    JsFood :=
  { e with
    food_name := patch.food_name,
    calories := some patch.calories,
    protein := some patch.protein,
    carbs := some patch.carbs,
    fat := some patch.fat,
    serving_size := patch.serving_size,
    timestamp := some now }

/-- `findIndex` + in-place assignment: replace the first entry matching the
snapshot fingerprint, reporting `none` when no entry matches. -/
def updateFirstMatch (entries : List JsFood) (snap : JsFood)
    (patch : Correction) (now : String) : Option (List JsFood) :=
  match entries with
  | [] => none
  | e :: t =>
    if entryMatchesSnapshot e snap then
      some (applyCorrectionPatch e patch now :: t)
    else (updateFirstMatch t snap patch now).map (e :: ·)

/-- The three ways `updateNutritionByMessageId` can come back to its caller:
it throws when no association exists, returns `false` when no ledger row
matches the snapshot, and returns `true` after saving the patched ledger. -/
inductive UpdateResult where
  | noAssociation : UpdateResult
  | notFound : UpdateResult
  | updated : NutritionData → UpdateResult
deriving DecidableEq

/-- `updateNutritionByMessageId(messageId, updatedNutritionData)`. -/
def updateNutritionByMessageId (assocs : Associations) (data : NutritionData)
    (messageId : String) (patch : Correction) (today now : String) :
    UpdateResult :=
  match alGet assocs messageId with
  | none => .noAssociation
  | some assoc =>
    match alGet data assoc.chatId with
    | none => .notFound
    | some dates =>
      match alGet dates today with
      | none => .notFound
      | some entries =>
        match updateFirstMatch entries assoc.nutritionData patch now with
        | none => .notFound
        | some entries2 =>
          .updated (alSet data assoc.chatId (alSet dates today entries2))

/-- The user-visible outcomes of `processCorrection`: the success message,
the "Could not find the original analysis to update." message, and the
catch-all apology (which is where the association-missing throw lands). -/
inductive CorrectionOutcome where
  | updatedOk : CorrectionOutcome
  | couldNotFindOriginal : CorrectionOutcome
  | errorCaught : CorrectionOutcome
deriving DecidableEq

/-- `processCorrection(msg)`: parse the reply text and run the update; the
association store is read but never written on this path. -/
def processCorrection (assocs : Associations) (data : NutritionData)
    (replyMessageId : String) (text : String) (today now : String) :
    CorrectionOutcome × NutritionData × Associations :=
  let correction := parseUserCorrection text
  match updateNutritionByMessageId assocs data replyMessageId correction
      today now with
  | .noAssociation => (.errorCaught, data, assocs)
  | .notFound => (.couldNotFindOriginal, data, assocs)
  | .updated d2 => (.updatedOk, d2, assocs)

/-- The removal-path fingerprint: `entry.timestamp ===
association.nutritionData.timestamp && entry.food_name ===
association.nutritionData.food_name` (note `undefined === undefined` is
`true`, so two absent timestamps compare equal). -/
def removalMatches (e snap : JsFood) : Prop :=
  e.timestamp = snap.timestamp ∧ e.food_name = snap.food_name

instance (e snap : JsFood) : Decidable (removalMatches e snap) := by
  unfold removalMatches; infer_instance

/-- The scan-and-splice of `handleRemovalCommand`: remove the first entry
matching the removal fingerprint. -/
def removeFirstMatch (entries : List JsFood) (snap : JsFood) :
    Option (JsFood × List JsFood) :=
  match entries with
  | [] => none
  | e :: t =>
    if removalMatches e snap then some (e, t)
    else (removeFirstMatch t snap).map (fun p => (p.1, e :: p.2))

/-- The user-visible outcomes of `handleRemovalCommand`: the early return
"Could not find the original analysis to remove." when no association
exists, the catch-all "Sorry, I couldn't remove that entry." (reached by the
throws for a missing scope/date or an unmatched fingerprint), and success
carrying the removed entry. -/
inductive RemovalOutcome where
  | noAssociation : RemovalOutcome
  | errorCaught : RemovalOutcome
  | removedOk : JsFood → RemovalOutcome
deriving DecidableEq

/-- `handleRemovalCommand(msg)`: resolve the association, locate today's
entry by the removal fingerprint, splice it out, save, and delete the
association; every failure leaves both blobs untouched. -/
def handleRemovalCommand (assocs : Associations) (data : NutritionData)
    (replyMessageId today : String) :
    RemovalOutcome × NutritionData × Associations :=
  match alGet assocs replyMessageId with
  | none => (.noAssociation, data, assocs)
  | some assoc =>
    match alGet data assoc.chatId with
    | none => (.errorCaught, data, assocs)
    | some dates =>
      match alGet dates today with
      | none => (.errorCaught, data, assocs)
      | some entries =>
        match removeFirstMatch entries assoc.nutritionData with
        | none => (.errorCaught, data, assocs)
        | some (removed, rest) =>
          (.removedOk removed,
            alSet data assoc.chatId (alSet dates today rest),
            alDelete assocs replyMessageId)

/-- The reply dispatcher's removal-keyword test: the lowercased reply text
contains one of `remove`, `delete`, `erase`, `cancel`. -/
def isRemovalCommand (text : String) : Bool :=
  ["remove", "delete", "erase", "cancel"].any
    (fun k => containsSub (lowerJs text.toList) k.toList)

/-! ### Dashboard leaderboard (`src/unnamed/part_002`, `/api/leaderboard`) -/

/-- The decrypted-ish user record read from the `users` blob; only the two
fields the leaderboard display-name logic looks at. -/
structure UserRecord where
  username : Option String
  fullName : Option String
deriving DecidableEq

/-- The `users` blob: chat id → user record. -/
abbrev Users : Type := List (String × UserRecord)

/-- JavaScript truthiness of a possibly-absent string field. -/
def jsStrTruthy : Option String → Bool
  | some s => !s.isEmpty
  | none => false

/-- `s.replace(/:/g, '')`. -/
def stripColonsJs (s : String) : String :=
  String.mk (s.toList.filter (fun c => c ≠ ':'))

/-- The display-name selection of the leaderboard endpoint. -/
def displayNameFor (users : Users) (chatId : String) : String :=
  match alGet users chatId with
  | none => "User " ++ chatId
  | some u =>
    if jsStrTruthy u.username then stripColonsJs (u.username.getD "")
    else if jsStrTruthy u.fullName then stripColonsJs (u.fullName.getD "")
    else "User " ++ chatId

/-- `maskUserName(fullName)`: names of length at most 3 are shown unmasked
(or `Anonymous` when empty); otherwise first and last characters are kept
and the interior is replaced by asterisks. -/
def maskUserName (fullName : String) : String :=
  let l := fullName.toList
  if l.length ≤ 3 then (if l.isEmpty then "Anonymous" else fullName)
  else
    match l with
    | [] => "Anonymous"
    | c :: _ =>
      String.mk ([c] ++ List.replicate (max 1 (l.length - 2)) '*'
        ++ [(l.getLast?).getD c])

/-- The dashboard's per-scope running totals: every field is accumulated
through `entry.field || 0`, so all six stay numeric. -/
structure DashTotals where
  calories : ℚ
  protein : ℚ
  carbs : ℚ
  fat : ℚ
  fiber : ℚ
  hydration : ℚ
deriving DecidableEq

/-- The body of the dashboard's totals `forEach` loop. -/
def dashAccum (t : DashTotals) (e : JsFood) : DashTotals :=
  ⟨t.calories + e.calories.getD 0, t.protein + e.protein.getD 0,
    t.carbs + e.carbs.getD 0, t.fat + e.fat.getD 0,
    t.fiber + e.fiber.getD 0, t.hydration + e.hydration.getD 0⟩

/-- The dashboard's totals accumulation over a day's entry list. -/
def dashSumList (l : List JsFood) : DashTotals :=
  l.foldl dashAccum ⟨0, 0, 0, 0, 0, 0⟩

/-- The six percentage-of-goal values. -/
structure Percentages where
  calories : ℚ
  protein : ℚ
  carbs : ℚ
  fat : ℚ
  fiber : ℚ
  hydration : ℚ
deriving DecidableEq

/-- `percentages`: `total / goal` per category. -/
def percentagesOf (t : DashTotals) (g : Goals) : Percentages :=
  ⟨t.calories / g.calories, t.protein / g.protein, t.carbs / g.carbs,
    t.fat / g.fat, t.fiber / g.fiber, t.hydration / g.hydration⟩

/-- `avgDeviation`: the mean of the six absolute deviations from `1`. -/
def avgDeviationOf (p : Percentages) : ℚ :=
  (|p.calories - 1| + |p.protein - 1| + |p.carbs - 1| + |p.fat - 1|
    + |p.fiber - 1| + |p.hydration - 1|) / 6

/-- `score = Math.max(0, Math.round(1000 - avgDeviation * 1000))`. -/
def leaderboardScore (t : DashTotals) (g : Goals) : ℤ :=
  jsMax0 (jsRound (1000 - avgDeviationOf (percentagesOf t g) * 1000))

/-- One row pushed onto the leaderboard array before sorting. -/
structure LBUser where
  userId : String
  displayName : String
  score : ℤ
  percentages : Percentages
  totals : DashTotals
  goals : Goals
deriving DecidableEq

/-- A row after ranking: `{...user, rank: index + 1, details}`. -/
structure RankedUser extends LBUser where
  rank : ℕ
  details : String
deriving DecidableEq

/-- The per-category breakdown string attached when ranking. -/
def detailsOf (p : Percentages) : String :=
  "C:" ++ intToStr (jsRound (p.calories * 100)) ++ "% P:"
    ++ intToStr (jsRound (p.protein * 100)) ++ "% C:"
    ++ intToStr (jsRound (p.carbs * 100)) ++ "% F:"
    ++ intToStr (jsRound (p.fat * 100)) ++ "% Fi:"
    ++ intToStr (jsRound (p.fiber * 100)) ++ "% H:"
    ++ intToStr (jsRound (p.hydration * 100)) ++ "%"

/-- The per-scope body of the leaderboard loop: skip scopes without data for
today, compute totals, percentages and the score, and push a row only when
`score > 0`. -/
def leaderboardRow (users : Users) (goals : Goals) (today : String)
    (kv : String × List (String × List JsFood)) : Option LBUser :=
  match alGet kv.2 today with
  | none => none
  | some entries =>
    let totals := dashSumList entries
    let score := leaderboardScore totals goals
    if 0 < score then
      some ⟨kv.1, maskUserName (displayNameFor users kv.1), score,
        percentagesOf totals goals, totals, goals⟩
    else none

/-- The full `/api/leaderboard` pipeline: build the unranked rows in scope
enumeration order, sort by score descending (the JavaScript comparator
`(a, b) => b.score - a.score` under the engine's stable sort), then attach
`rank = index + 1` and the details string. -/
def leaderboardFor (nutrition : NutritionData) (users : Users) (goals : Goals)
    (today : String) : List RankedUser :=
  let lb := nutrition.filterMap (leaderboardRow users goals today)
  let sorted := lb.mergeSort (fun a b => decide (b.score ≤ a.score))
  sorted.enum.map (fun p =>
    { toLBUser := p.2, rank := p.1 + 1, details := detailsOf p.2.percentages })

/-! ### Bridging and helper lemmas -/

/-- `jsRound` is exactly Mathlib's `round` on `ℚ`. -/
theorem jsRound_eq_round (q : ℚ) : jsRound q = round q := by
  rw [round_eq, jsRound]

theorem alGet_alSet_self {α : Type} (m : List (String × α)) (k : String)
    (v : α) : alGet (alSet m k v) k = some v := by
  induction m with
  | nil => simp [alGet, alSet]
  | cons kv t ih =>
    by_cases h : kv.1 = k
    · simp [alSet, h, alGet]
    · simp [alSet, h, alGet, ih]

theorem alGet_eq_none_of_not_mem {α : Type} (m : List (String × α))
    (k : String) (h : k ∉ m.map Prod.fst) : alGet m k = none := by
  induction m with
  | nil => rfl
  | cons kv t ih =>
    simp only [List.map_cons, List.mem_cons] at h
    push_neg at h
    have hk : kv.1 ≠ k := fun hh => h.1 hh.symm
    simp [alGet, hk, ih h.2]

theorem alGet_of_mem_nodup {α : Type} (m : List (String × α)) (k : String)
    (v : α) (hnd : (m.map Prod.fst).Nodup) (hmem : (k, v) ∈ m) :
    alGet m k = some v := by
  induction m with
  | nil => simp at hmem
  | cons kv t ih =>
    simp only [List.map_cons, List.nodup_cons] at hnd
    rcases List.mem_cons.mp hmem with h | h
    · simp [alGet, ← h]
    · have hk : kv.1 ≠ k := by
        intro he
        exact hnd.1 (he ▸ List.mem_map_of_mem Prod.fst h)
      simp [alGet, hk, ih hnd.2 h]

theorem alGet_alDelete_self {α : Type} (m : List (String × α)) (k : String)
    (hnd : (m.map Prod.fst).Nodup) : alGet (alDelete m k) k = none := by
  induction m with
  | nil => rfl
  | cons kv t ih =>
    simp only [List.map_cons, List.nodup_cons] at hnd
    by_cases h : kv.1 = k
    · simp only [alDelete, if_pos h]
      exact alGet_eq_none_of_not_mem t k (h ▸ hnd.1)
    · simp [alDelete, h, alGet, ih hnd.2]

theorem addOptQ_some_zero (a : Option ℚ) : addOptQ a (some 0) = a := by
  cases a <;> simp [addOptQ]

theorem addOptQ_reassoc (a : Option ℚ) (q s : ℚ) :
    addOptQ (addOptQ a (some q)) (some s) = addOptQ a (some (q + s)) := by
  cases a <;> simp [addOptQ, add_assoc]

/-- An entry carrying all four macro fields (as every entry built by the
vision flow or a correction does). -/
def macrosPresent (e : JsFood) : Prop :=
  e.calories.isSome ∧ e.protein.isSome ∧ e.carbs.isSome ∧ e.fat.isSome

instance (e : JsFood) : Decidable (macrosPresent e) := by
  unfold macrosPresent; infer_instance

theorem foldl_botAccum (l : List JsFood) (t : Totals)
    (h : ∀ e ∈ l, macrosPresent e) :
    l.foldl botAccum t =
      ⟨addOptQ t.calories (some ((l.map (fun e => e.calories.getD 0)).sum)),
       addOptQ t.protein (some ((l.map (fun e => e.protein.getD 0)).sum)),
       addOptQ t.carbs (some ((l.map (fun e => e.carbs.getD 0)).sum)),
       addOptQ t.fat (some ((l.map (fun e => e.fat.getD 0)).sum)),
       t.fiber + (l.map (fun e => e.fiber.getD 0)).sum,
       t.hydration + (l.map (fun e => e.hydration.getD 0)).sum⟩ := by
  induction l generalizing t with
  | nil => cases t; simp [addOptQ_some_zero]
  | cons e l ih =>
    have he := h e (List.mem_cons_self e l)
    obtain ⟨c, hc⟩ := Option.isSome_iff_exists.mp he.1
    obtain ⟨p, hp⟩ := Option.isSome_iff_exists.mp he.2.1
    obtain ⟨cb, hcb⟩ := Option.isSome_iff_exists.mp he.2.2.1
    obtain ⟨f, hf⟩ := Option.isSome_iff_exists.mp he.2.2.2
    simp only [List.foldl_cons, List.map_cons, List.sum_cons]
    rw [ih (botAccum t e) (fun x hx => h x (List.mem_cons_of_mem e hx))]
    simp [botAccum, hc, hp, hcb, hf, addOptQ_reassoc, add_assoc]

theorem botSumList_eq (l : List JsFood) (h : ∀ e ∈ l, macrosPresent e) :
    botSumList l =
      ⟨some ((l.map (fun e => e.calories.getD 0)).sum),
       some ((l.map (fun e => e.protein.getD 0)).sum),
       some ((l.map (fun e => e.carbs.getD 0)).sum),
       some ((l.map (fun e => e.fat.getD 0)).sum),
       (l.map (fun e => e.fiber.getD 0)).sum,
       (l.map (fun e => e.hydration.getD 0)).sum⟩ := by
  rw [botSumList, foldl_botAccum l zeroTotals h]
  simp [zeroTotals, addOptQ]

theorem foldl_dashAccum (l : List JsFood) (t : DashTotals) :
    l.foldl dashAccum t =
      ⟨t.calories + (l.map (fun e => e.calories.getD 0)).sum,
       t.protein + (l.map (fun e => e.protein.getD 0)).sum,
       t.carbs + (l.map (fun e => e.carbs.getD 0)).sum,
       t.fat + (l.map (fun e => e.fat.getD 0)).sum,
       t.fiber + (l.map (fun e => e.fiber.getD 0)).sum,
       t.hydration + (l.map (fun e => e.hydration.getD 0)).sum⟩ := by
  induction l generalizing t with
  | nil => cases t; simp
  | cons e l ih =>
    simp only [List.foldl_cons, List.map_cons, List.sum_cons]
    rw [ih (dashAccum t e)]
    simp [dashAccum, add_assoc]

theorem dashSumList_eq (l : List JsFood) :
    dashSumList l =
      ⟨(l.map (fun e => e.calories.getD 0)).sum,
       (l.map (fun e => e.protein.getD 0)).sum,
       (l.map (fun e => e.carbs.getD 0)).sum,
       (l.map (fun e => e.fat.getD 0)).sum,
       (l.map (fun e => e.fiber.getD 0)).sum,
       (l.map (fun e => e.hydration.getD 0)).sum⟩ := by
  rw [dashSumList, foldl_dashAccum]
  simp

theorem sum_map_eraseIdx {α : Type} (f : α → ℚ) (l : List α) (j : ℕ) (x : α)
    (hx : l[j]? = some x) :
    ((l.eraseIdx j).map f).sum = (l.map f).sum - f x := by
  induction l generalizing j with
  | nil => simp at hx
  | cons a t ih =>
    cases j with
    | zero =>
      simp only [List.getElem?_cons_zero, Option.some.injEq] at hx
      subst hx
      simp [List.eraseIdx]
    | succ j =>
      rw [List.getElem?_cons_succ] at hx
      simp only [List.eraseIdx_cons_succ, List.map_cons, List.sum_cons, ih j hx]
      ring

theorem snd_mem_of_mem_enumFrom {α : Type} (l : List α) (n : ℕ) (p : ℕ × α)
    (h : p ∈ l.enumFrom n) : p.2 ∈ l := by
  induction l generalizing n with
  | nil => simp at h
  | cons a t ih =>
    simp only [List.enumFrom, List.mem_cons] at h
    rcases h with h | h
    · simp [h]
    · exact List.mem_cons_of_mem a (ih (n + 1) h)

theorem getTodayTotals_eq_entriesAt (data : NutritionData)
    (chatId today : String) :
    getTodayTotals data chatId today = botSumList (entriesAt data chatId today) := by
  unfold getTodayTotals entriesAt
  cases h1 : alGet data chatId with
  | none => simp [h1, alGet, botSumList]
  | some dates =>
    cases h2 : alGet dates today with
    | none => simp [h1, h2, botSumList]
    | some entries => simp [h1, h2]

/-! ### Ledger-shape lemmas for sequences of appends -/

/-- The ledger after a sequence of `addFoodEntry` calls to one scope, each
entry paired with its creation time. -/
def appendAll (data : NutritionData) (chatId : String)
    (ns : List (JsFood × String)) (today : String) : NutritionData :=
  ns.foldl (fun d p => addFoodEntry d chatId p.1 today p.2) data

theorem entriesAt_addFoodEntry (data : NutritionData) (chatId : String)
    (n : JsFood) (today now : String) :
    entriesAt (addFoodEntry data chatId n today now) chatId today
      = entriesAt data chatId today
        ++ [{ n with timestamp := some (n.timestamp.getD now) }] := by
  unfold addFoodEntry entriesAt
  simp [alGet_alSet_self]

theorem entriesAt_appendAll (ns : List (JsFood × String)) (data : NutritionData)
    (chatId today : String) :
    entriesAt (appendAll data chatId ns today) chatId today
      = entriesAt data chatId today
        ++ ns.map (fun p => { p.1 with timestamp := some (p.1.timestamp.getD p.2) }) := by
  induction ns generalizing data with
  | nil => simp [appendAll]
  | cons p ns ih =>
    have h1 : appendAll data chatId (p :: ns) today
        = appendAll (addFoodEntry data chatId p.1 today p.2) chatId ns today := rfl
    rw [h1, ih, entriesAt_addFoodEntry]
    simp

/-! ### Claims C8 and C6 -/

/-- C8: recording an association for a message id and then resolving that id
returns the stored association, whose snapshot is a structurally equal copy
of the recorded entry, through the persisted association map. -/
theorem c8_record_resolve_roundtrip (assocs : Associations)
    (messageId chatId : String) (entry : JsFood) (now : String) :
    resolveAssociation
        (saveMessageAssociation assocs messageId chatId entry now) messageId
      = some ⟨chatId, entry, now⟩ := by
  unfold resolveAssociation saveMessageAssociation
  exact alGet_alSet_self assocs messageId ⟨chatId, entry, now⟩

/-- C6: for every sequence of appends to one (scope, date), the aggregate is
the field-wise sum of the appended entries' nutrient fields (absent fiber and
hydration counting as zero), and an untouched scope aggregates to the
all-zero totals object, never to a null. -/
theorem c6_append_aggregate (ns : List (JsFood × String)) (chatId today : String)
    (h : ∀ p ∈ ns, macrosPresent p.1) :
    getTodayTotals (appendAll [] chatId ns today) chatId today
      = ⟨some ((ns.map (fun p => p.1.calories.getD 0)).sum),
         some ((ns.map (fun p => p.1.protein.getD 0)).sum),
         some ((ns.map (fun p => p.1.carbs.getD 0)).sum),
         some ((ns.map (fun p => p.1.fat.getD 0)).sum),
         (ns.map (fun p => p.1.fiber.getD 0)).sum,
         (ns.map (fun p => p.1.hydration.getD 0)).sum⟩
    ∧ ∀ c t : String, getTodayTotals [] c t = zeroTotals := by
  refine ⟨?_, fun c t => rfl⟩
  rw [getTodayTotals_eq_entriesAt, entriesAt_appendAll]
  have hent : entriesAt [] chatId today = [] := rfl
  rw [hent, List.nil_append, botSumList_eq]
  · simp [List.map_map, Function.comp_def]
  · intro e he
    obtain ⟨p, hp, rfl⟩ := List.mem_map.mp he
    simpa [macrosPresent] using h p hp

/-- A first appended entry used by concrete witnesses. -/
def appleIn : JsFood :=
  ⟨none, "Apple", some 95, some (1/2), some 25, some (3/10), none, none,
    "1 apple", "high"⟩

/-- A second appended entry used by concrete witnesses. -/
def milkIn : JsFood :=
  ⟨none, "Milk", some 103, some 8, some 12, some (12/5), some 0, some 240,
    "1 cup", "medium"⟩

/-- Witness for C6 at a concrete two-append sequence. -/
theorem c6_append_aggregate_witness :
    getTodayTotals (appendAll [] "A" [(appleIn, "T1"), (milkIn, "T2")] "D")
        "A" "D"
      = ⟨some 198, some (17/2), some 37, some (27/10), 0, 240⟩ := by
  have h := (c6_append_aggregate [(appleIn, "T1"), (milkIn, "T2")] "A" "D"
    (by decide)).1
  rw [h]
  simp [appleIn, milkIn]
  norm_num

/-! ### Claim C7 -/

/-- C7: `removeFoodEntryByIndex` is 0-based; a valid index removes exactly
the entry at that index, so the aggregate afterwards is the original
aggregate minus the removed entry's fields (absent fiber/hydration counting
as zero), while any out-of-range index is reported as a plain not-found and
leaves the ledger — hence the aggregate — unchanged. -/
theorem c7_remove_by_index (data : NutritionData) (chatId today : String)
    (i : ℤ) (hp : ∀ e ∈ entriesAt data chatId today, macrosPresent e) :
    (∀ _ : 0 ≤ i ∧ i < (entriesAt data chatId today).length,
      ∃ removed,
        (entriesAt data chatId today)[i.toNat]? = some removed ∧
        (removeFoodEntryByIndex data chatId today i).1 = some removed ∧
        entriesAt (removeFoodEntryByIndex data chatId today i).2 chatId today
          = (entriesAt data chatId today).eraseIdx i.toNat ∧
        getTodayTotals (removeFoodEntryByIndex data chatId today i).2
            chatId today
          = ⟨some (((entriesAt data chatId today).map
                (fun e => e.calories.getD 0)).sum - removed.calories.getD 0),
             some (((entriesAt data chatId today).map
                (fun e => e.protein.getD 0)).sum - removed.protein.getD 0),
             some (((entriesAt data chatId today).map
                (fun e => e.carbs.getD 0)).sum - removed.carbs.getD 0),
             some (((entriesAt data chatId today).map
                (fun e => e.fat.getD 0)).sum - removed.fat.getD 0),
             ((entriesAt data chatId today).map
                (fun e => e.fiber.getD 0)).sum - removed.fiber.getD 0,
             ((entriesAt data chatId today).map
                (fun e => e.hydration.getD 0)).sum - removed.hydration.getD 0⟩) ∧
    (¬(0 ≤ i ∧ i < (entriesAt data chatId today).length) →
      removeFoodEntryByIndex data chatId today i = (none, data)) := by
  cases h1 : alGet data chatId with
  | none =>
    have hent : entriesAt data chatId today = [] := by
      unfold entriesAt; simp [h1, alGet]
    refine ⟨fun hb => absurd hb ?_, fun _ => ?_⟩
    · rw [hent]; simp
    · unfold removeFoodEntryByIndex; simp [h1]
  | some dates =>
    cases h2 : alGet dates today with
    | none =>
      have hent : entriesAt data chatId today = [] := by
        unfold entriesAt; simp [h1, h2]
      refine ⟨fun hb => absurd hb ?_, fun _ => ?_⟩
      · rw [hent]; simp
      · unfold removeFoodEntryByIndex; simp [h1, h2]
    | some entries =>
      have hent : entriesAt data chatId today = entries := by
        unfold entriesAt; simp [h1, h2]
      rw [hent] at hp ⊢
      constructor
      · rintro ⟨hb0, hb1⟩
        have hlt : i.toNat < entries.length := by omega
        obtain ⟨removed, hrem⟩ : ∃ x, entries[i.toNat]? = some x :=
          ⟨entries[i.toNat], List.getElem?_eq_getElem hlt⟩
        have hres : removeFoodEntryByIndex data chatId today i
            = (some removed,
               alSet data chatId (alSet dates today (entries.eraseIdx i.toNat))) := by
          unfold removeFoodEntryByIndex
          simp only [h1, h2]
          rw [if_pos ⟨hb0, by exact_mod_cast hb1⟩, hrem]
        have hnew : entriesAt (removeFoodEntryByIndex data chatId today i).2
            chatId today = entries.eraseIdx i.toNat := by
          rw [hres]; unfold entriesAt; simp [alGet_alSet_self]
        refine ⟨removed, hrem, by rw [hres], hnew, ?_⟩
        rw [getTodayTotals_eq_entriesAt, hnew, botSumList_eq]
        · have hr := fun f => sum_map_eraseIdx f entries i.toNat removed hrem
          rw [hr, hr, hr, hr, hr, hr]
        · intro e he
          exact hp e ((List.eraseIdx_sublist entries i.toNat).mem he)
      · intro hnb
        unfold removeFoodEntryByIndex
        simp only [h1, h2]
        rw [if_neg (by exact_mod_cast hnb)]

/-- A stored ledger entry used by concrete witnesses. -/
def entryA : JsFood :=
  ⟨some "T1", "Apple", some 95, some (1/2), some 25, some (3/10), none, none,
    "1 apple", "high"⟩

/-- Another stored ledger entry used by concrete witnesses. -/
def entryB : JsFood :=
  ⟨some "T2", "Milk", some 103, some 8, some 12, some (12/5), some 0, some 240,
    "1 cup", "medium"⟩

/-- A concrete ledger holding the two entries for scope `A` on date `D`. -/
def dataAB : NutritionData := [("A", [("D", [entryA, entryB])])]

/-- Witness for C7: removing index 0 of the concrete two-entry ledger
returns the first entry. -/
theorem c7_remove_by_index_witness :
    (removeFoodEntryByIndex dataAB "A" "D" 0).1 = some entryA := by
  obtain ⟨removed, hget, hfst, -, -⟩ :=
    (c7_remove_by_index dataAB "A" "D" 0 (by decide)).1 (by decide)
  have hA : (entriesAt dataAB "A" "D")[(0 : ℤ).toNat]? = some entryA := by
    simp [entriesAt, dataAB, alGet]
  rw [hA] at hget
  rw [hfst, ← Option.some.inj hget]

/-! ### Claim C10 -/

/-- Injection of the dashboard's always-numeric totals into the bot's totals
shape, for comparing the two computations. -/
def someizeDash (d : DashTotals) : Totals :=
  ⟨some d.calories, some d.protein, some d.carbs, some d.fat, d.fiber,
    d.hydration⟩

/-- An entry with a missing `calories` field, showing why the
macros-present hypothesis is needed. -/
def noCalEntry : JsFood :=
  ⟨some "T", "Mystery", none, some 1, some 1, some 1, none, none, "", "low"⟩

/-- C10: on any day's entry list whose entries all carry numeric macros, the
bot's `getTodayTotals` and the dashboard leaderboard's per-scope totals loop
agree on all six categories (both treating absent fiber/hydration as zero);
and the agreement genuinely needs that hypothesis, because the dashboard
defaults an absent macro to zero while the bot's sum degenerates. -/
theorem c10_bot_dashboard_totals_agree (data : NutritionData)
    (chatId today : String)
    (hp : ∀ e ∈ entriesAt data chatId today, macrosPresent e) :
    getTodayTotals data chatId today
        = someizeDash (dashSumList (entriesAt data chatId today))
    ∧ botSumList [noCalEntry] ≠ someizeDash (dashSumList [noCalEntry]) := by
  constructor
  · rw [getTodayTotals_eq_entriesAt, botSumList_eq _ hp, dashSumList_eq]
    rfl
  · intro h
    have h1 : (botSumList [noCalEntry]).calories = none := by
      simp [botSumList, botAccum, zeroTotals, noCalEntry, addOptQ]
    rw [h] at h1
    simp [someizeDash] at h1

/-- Witness for C10 at the concrete two-entry ledger. -/
theorem c10_bot_dashboard_totals_agree_witness :
    getTodayTotals dataAB "A" "D"
      = someizeDash (dashSumList (entriesAt dataAB "A" "D")) :=
  (c10_bot_dashboard_totals_agree dataAB "A" "D" (by decide)).1

/-! ### Claim C4 -/

/-- The parse of `"500ml coke"`, shared between claims. -/
theorem parse_500ml_coke_eq :
    parseUserCorrection "500ml coke" = ⟨"Coke", 280, 0, 78, 0, "500ml"⟩ := by
  have hscan : scanQty (normalizeInput "500ml coke")
      = some ⟨"500ml".toList, "500".toList, [], "ml"⟩ := by decide
  have hq : decQty "500".toList [] = 500 := by
    simp [decQty, show digitsToNat "500".toList = 500 from by decide,
      digitsToNat]
  have hname : String.mk (capitalizeJs
      (residualFoodName (normalizeInput "500ml coke")
        (some ⟨"500ml".toList, "500".toList, [], "ml"⟩))) = "Coke" := by decide
  have hserv : jsQtyStr "500".toList [] ++ "ml" = "500ml" := by decide
  have hbase : getBaseNutrition "Coke" = ⟨140, 0, 39, 0⟩ := by
    simp +decide [getBaseNutrition, foodDatabase, findBaseRow]
  have hmult : calculateServingMultiplier 500 "ml" = 2 := by
    simp [calculateServingMultiplier, unitMultipliers, lookupQ]
    norm_num
  simp only [parseUserCorrection, hscan, hq, hname, hserv]
  simp only [estimateNutrition, hbase, hmult]
  simp only [Correction.mk.injEq]
  norm_num [round1, jsRound]

/-- The parse of `"coffee 200ml"`, shared between claims. -/
theorem parse_coffee_200ml_eq :
    parseUserCorrection "coffee 200ml" = ⟨"Coffee", 4, 0.2, 0, 0, "200ml"⟩ := by
  have hscan : scanQty (normalizeInput "coffee 200ml")
      = some ⟨"200ml".toList, "200".toList, [], "ml"⟩ := by decide
  have hq : decQty "200".toList [] = 200 := by
    simp [decQty, show digitsToNat "200".toList = 200 from by decide,
      digitsToNat]
  have hname : String.mk (capitalizeJs
      (residualFoodName (normalizeInput "coffee 200ml")
        (some ⟨"200ml".toList, "200".toList, [], "ml"⟩))) = "Coffee" := by
    decide
  have hserv : jsQtyStr "200".toList [] ++ "ml" = "200ml" := by decide
  have hbase : getBaseNutrition "Coffee" = ⟨5, 0.3, 0, 0⟩ := by
    simp +decide [getBaseNutrition, foodDatabase, findBaseRow]
  have hmult : calculateServingMultiplier 200 "ml" = 4/5 := by
    simp [calculateServingMultiplier, unitMultipliers, lookupQ]
    norm_num
  simp only [parseUserCorrection, hscan, hq, hname, hserv]
  simp only [estimateNutrition, hbase, hmult]
  simp only [Correction.mk.injEq]
  norm_num [round1, jsRound]

/-- C4: the correction interpreter's two canonical examples.  `"500ml coke"`
parses to Coke, serving `500ml`, with the cola base row scaled by the
`500 / 250 = 2` multiplier: 280 kcal, 78 g carbs, 0 protein, 0 fat; and
`"coffee 200ml"` parses with multiplier `0.8` on the coffee base row:
4 kcal, protein `0.24` rounded to one decimal `0.2`, 0 carbs, 0 fat. -/
theorem c4_interpreter_examples :
    parseUserCorrection "500ml coke" = ⟨"Coke", 280, 0, 78, 0, "500ml"⟩ ∧
    parseUserCorrection "coffee 200ml" = ⟨"Coffee", 4, 0.2, 0, 0, "200ml"⟩ :=
  ⟨parse_500ml_coke_eq, parse_coffee_200ml_eq⟩

/-! ### Claim C9 -/

theorem findBaseRow_of_no_match (db : List (String × BaseRow)) (name : String)
    (h : ∀ kv ∈ db, containsSub (lowerJs name.toList) (lowerJs kv.1.toList)
      = false) : findBaseRow db name = defaultBaseRow := by
  induction db with
  | nil => rfl
  | cons kv t ih =>
    simp only [findBaseRow]
    rw [if_neg (by simpa [String.toList] using h kv (List.mem_cons_self kv t))]
    exact ih (fun x hx => h x (List.mem_cons_of_mem kv hx))

/-- C9: the interpreter is total and never fails.  When no quantity+unit
token matches, the parse uses quantity 1, unit `serving` and serving size
`Standard serving`; when the residual food name is empty it becomes
`Unknown food`; and a food name matching no lookup-table key falls back to
the `Default` row (100 kcal, 5 g protein, 15 g carbs, 3 g fat) scaled by the
unit multiplier. -/
theorem c9_parse_defaults :
    (∀ input : String, scanQty (normalizeInput input) = none →
      parseUserCorrection input
        = ⟨String.mk (capitalizeJs (residualFoodName (normalizeInput input) none)),
           (estimateNutrition (String.mk (capitalizeJs
              (residualFoodName (normalizeInput input) none))) 1 "serving").calories,
           (estimateNutrition (String.mk (capitalizeJs
              (residualFoodName (normalizeInput input) none))) 1 "serving").protein,
           (estimateNutrition (String.mk (capitalizeJs
              (residualFoodName (normalizeInput input) none))) 1 "serving").carbs,
           (estimateNutrition (String.mk (capitalizeJs
              (residualFoodName (normalizeInput input) none))) 1 "serving").fat,
           "Standard serving"⟩) ∧
    (∀ input : String,
      cleanedResidual (normalizeInput input) (scanQty (normalizeInput input)) = [] →
      (parseUserCorrection input).food_name = "Unknown food") ∧
    (∀ name : String,
      (∀ kv ∈ foodDatabase,
        containsSub (lowerJs name.toList) (lowerJs kv.1.toList) = false) →
      getBaseNutrition name = defaultBaseRow ∧
      ∀ (q : ℚ) (u : String), estimateNutrition name q u
        = ⟨(jsRound (100 * calculateServingMultiplier q u) : ℚ),
           round1 (5 * calculateServingMultiplier q u),
           round1 (15 * calculateServingMultiplier q u),
           round1 (3 * calculateServingMultiplier q u)⟩) := by
  refine ⟨?_, ?_, ?_⟩
  · intro input h
    simp only [parseUserCorrection, h]
  · intro input h
    cases hm : scanQty (normalizeInput input) with
    | none =>
      rw [hm] at h
      simp only [parseUserCorrection, hm, residualFoodName, h]
      decide
    | some tok =>
      rw [hm] at h
      simp only [parseUserCorrection, hm, residualFoodName, h]
      decide
  · intro name h
    have hrow : getBaseNutrition name = defaultBaseRow :=
      findBaseRow_of_no_match foodDatabase name h
    refine ⟨hrow, fun q u => ?_⟩
    simp only [estimateNutrition, hrow, defaultBaseRow]

/-- Witness for C9 at the concrete no-match inputs `"!!!"` and `"xyz"`. -/
theorem c9_parse_defaults_witness :
    (parseUserCorrection "!!!").serving_size = "Standard serving" ∧
    (parseUserCorrection "!!!").food_name = "Unknown food" ∧
    getBaseNutrition "xyz" = defaultBaseRow := by
  refine ⟨?_, c9_parse_defaults.2.1 "!!!" (by decide),
    (c9_parse_defaults.2.2 "xyz" (by decide)).1⟩
  rw [c9_parse_defaults.1 "!!!" (by decide)]

/-! ### The analysis-then-reply scenario shared by claims C1, C2 and C3 -/

/-- The vision-analysis output of the scenario (`analyzeFood` returns only
the nine prompted fields - in particular no `timestamp` key). -/
def pizzaAnalysis : JsFood :=
  ⟨none, "Pizza", some 300, some 12, some 36, some 10, some 2, some 150,
    "1 slice", "high"⟩

/-- The ledger after the photo flow appends the analysis for scope `A` on
date `D` at time `T0`. -/
def scenarioData : NutritionData := addFoodEntry [] "A" pizzaAnalysis "D" "T0"

/-- The association the photo flow records for the outbound analysis message
`10`: the raw analysis object is stored as the snapshot. -/
def scenarioAssocs : Associations :=
  saveMessageAssociation [] "10" "A" pizzaAnalysis "T1"

/-- The ledger entry the append produced: the analysis stamped `T0`. -/
def entry0 : JsFood :=
  ⟨some "T0", "Pizza", some 300, some 12, some 36, some 10, some 2, some 150,
    "1 slice", "high"⟩

theorem scenarioData_eq : scenarioData = [("A", [("D", [entry0])])] := by
  simp [scenarioData, addFoodEntry, alGet, alSet, pizzaAnalysis, entry0]

theorem scenarioAssocs_eq :
    scenarioAssocs = [("10", ⟨"A", pizzaAnalysis, "T1"⟩)] := by
  simp [scenarioAssocs, saveMessageAssociation, alSet]

/-! ### Claim C1 -/

/-- C1 (recording the code bug): in the scenario - one entry appended today
via photo analysis, the association recorded for the outbound message - a
`remove` reply does *not* succeed.  The removal fingerprint compares
`entry.timestamp` (stamped at append time) with
`association.nutritionData.timestamp`, which the analysis snapshot does not
have, so the match fails: the handler reports the catch-all failure, deletes
nothing, leaves both blobs unchanged (hence a second identical reply fails
the same way), today's ledger is still non-empty and the association still
resolves - contradicting the claimed success/empty-ledger/deleted-association
first call. -/
theorem c1_removal_path_never_succeeds :
    isRemovalCommand "remove" = true ∧
    handleRemovalCommand scenarioAssocs scenarioData "10" "D"
      = (.errorCaught, scenarioData, scenarioAssocs) ∧
    entriesAt scenarioData "A" "D" = [entry0] ∧
    resolveAssociation scenarioAssocs "10" = some ⟨"A", pizzaAnalysis, "T1"⟩ := by
  refine ⟨by decide, ?_, ?_, ?_⟩
  · rw [scenarioAssocs_eq, scenarioData_eq]
    simp [handleRemovalCommand, alGet, removeFirstMatch, removalMatches,
      entry0, pizzaAnalysis]
  · rw [scenarioData_eq]
    simp [entriesAt, alGet]
  · rw [scenarioAssocs_eq]
    simp [resolveAssociation, alGet]

/-! ### Claim C2 -/

/-- The parsed patch of the scenario's first correction (`"500ml coke"`). -/
def patchCoke : Correction := ⟨"Coke", 280, 0, 78, 0, "500ml"⟩

/-- The parsed patch of the scenario's second correction (`"coffee 200ml"`). -/
def patchCoffee : Correction := ⟨"Coffee", 4, 0.2, 0, 0, "200ml"⟩

/-- The scenario's ledger entry after the first correction: patched macros
and serving size, a fresh timestamp `T2`, and the old fiber, hydration and
confidence carried over. -/
def correctedEntry : JsFood :=
  ⟨some "T2", "Coke", some 280, some 0, some 78, some 0, some 2, some 150,
    "500ml", "high"⟩

/-- The ledger after the scenario's first correction. -/
def scenarioData2 : NutritionData := [("A", [("D", [correctedEntry])])]

theorem scenario_update_eq :
    updateNutritionByMessageId scenarioAssocs scenarioData "10" patchCoke
        "D" "T2"
      = .updated scenarioData2 := by
  rw [scenarioAssocs_eq, scenarioData_eq]
  simp [updateNutritionByMessageId, alGet, alSet, updateFirstMatch,
    entryMatchesSnapshot, applyCorrectionPatch, entry0, pizzaAnalysis,
    patchCoke, scenarioData2, correctedEntry]

/-- C2 is false as stated: after the scenario's successful correction the
stored entry keeps its old confidence `high` (it is not set to
`manually corrected` - only the outbound message text says that), and its
`timestamp` (the createdAt anchor) is overwritten with the correction time
`T2`, no longer the original `T0`. -/
theorem c2_counterexample_confidence_and_timestamp :
    updateNutritionByMessageId scenarioAssocs scenarioData "10" patchCoke
        "D" "T2"
      = .updated scenarioData2 ∧
    entriesAt scenarioData2 "A" "D" = [correctedEntry] ∧
    correctedEntry.confidence = "high" ∧
    correctedEntry.confidence ≠ "manually corrected" ∧
    entriesAt scenarioData "A" "D" = [entry0] ∧
    entry0.timestamp = some "T0" ∧
    correctedEntry.timestamp = some "T2" ∧
    correctedEntry.timestamp ≠ entry0.timestamp := by
  refine ⟨scenario_update_eq, ?_, rfl, by decide, ?_, rfl, rfl, by decide⟩
  · simp [entriesAt, scenarioData2, alGet]
  · rw [scenarioData_eq]; simp [entriesAt, alGet]

theorem updateFirstMatch_spec (entries : List JsFood) (snap : JsFood)
    (patch : Correction) (now : String) (entries2 : List JsFood)
    (h : updateFirstMatch entries snap patch now = some entries2) :
    ∃ i e, entries[i]? = some e ∧ entryMatchesSnapshot e snap ∧
      (∀ j x, j < i → entries[j]? = some x → ¬entryMatchesSnapshot x snap) ∧
      entries2 = entries.set i (applyCorrectionPatch e patch now) := by
  induction entries generalizing entries2 with
  | nil => simp [updateFirstMatch] at h
  | cons e t ih =>
    by_cases hm : entryMatchesSnapshot e snap
    · rw [updateFirstMatch, if_pos hm] at h
      refine ⟨0, e, by simp, hm, fun j x hj _ => absurd hj (by omega), ?_⟩
      rw [← Option.some.inj h]
      rfl
    · rw [updateFirstMatch, if_neg hm] at h
      obtain ⟨l2, hl2, rfl⟩ := Option.map_eq_some'.mp h
      obtain ⟨i, e', hget, hmatch, hfirst, rfl⟩ := ih l2 hl2
      refine ⟨i + 1, e', by simpa using hget, hmatch, ?_,
        by simp [List.set_cons_succ]⟩
      intro j x hj hx
      cases j with
      | zero =>
        simp only [List.getElem?_cons_zero, Option.some.injEq] at hx
        rwa [hx] at hm
      | succ j => exact hfirst j x (by omega) (by simpa using hx)

/-- C2 amended: for every ledger entry located by the correction path, the
in-place update replaces the six patch fields (food name, the four macros,
serving size), preserves the fields not present in the patch - fiber,
hydration *and confidence*, which stays at its old value - and overwrites
the entry's `timestamp` (its createdAt anchor) with the correction time. -/
theorem c2_correction_update_effects :
    (∀ (e : JsFood) (patch : Correction) (now : String),
      applyCorrectionPatch e patch now
        = ⟨some now, patch.food_name, some patch.calories, some patch.protein,
           some patch.carbs, some patch.fat, e.fiber, e.hydration,
           patch.serving_size, e.confidence⟩) ∧
    (∀ (assocs : Associations) (data : NutritionData) (messageId : String)
       (patch : Correction) (today now : String) (d2 : NutritionData),
      updateNutritionByMessageId assocs data messageId patch today now
          = .updated d2 →
      ∃ a dates entries i e,
        alGet assocs messageId = some a ∧
        alGet data a.chatId = some dates ∧
        alGet dates today = some entries ∧
        entries[i]? = some e ∧
        entryMatchesSnapshot e a.nutritionData ∧
        (∀ j x, j < i → entries[j]? = some x →
          ¬entryMatchesSnapshot x a.nutritionData) ∧
        d2 = alSet data a.chatId (alSet dates today
          (entries.set i (applyCorrectionPatch e patch now)))) := by
  refine ⟨fun e patch now => rfl, ?_⟩
  intro assocs data messageId patch today now d2 h
  unfold updateNutritionByMessageId at h
  cases h1 : alGet assocs messageId with
  | none => simp only [h1] at h; exact absurd h (by simp)
  | some a =>
    simp only [h1] at h
    cases h2 : alGet data a.chatId with
    | none => simp only [h2] at h; exact absurd h (by simp)
    | some dates =>
      simp only [h2] at h
      cases h3 : alGet dates today with
      | none => simp only [h3] at h; exact absurd h (by simp)
      | some entries =>
        simp only [h3] at h
        cases h4 : updateFirstMatch entries a.nutritionData patch now with
        | none => simp only [h4] at h; exact absurd h (by simp)
        | some entries2 =>
          simp only [h4, UpdateResult.updated.injEq] at h
          obtain ⟨i, e, hget, hmatch, hfirst, rfl⟩ :=
            updateFirstMatch_spec entries a.nutritionData patch now entries2 h4
          exact ⟨a, dates, entries, i, e, rfl, h2, h3, hget, hmatch, hfirst,
            h.symm⟩

/-- Witness for C2 (amended) at the scenario's concrete correction. -/
theorem c2_correction_update_effects_witness :
    ∃ a dates entries i e,
      alGet scenarioAssocs "10" = some a ∧
      alGet scenarioData a.chatId = some dates ∧
      alGet dates "D" = some entries ∧
      entries[i]? = some e ∧
      entryMatchesSnapshot e a.nutritionData ∧
      (∀ j x, j < i → entries[j]? = some x →
        ¬entryMatchesSnapshot x a.nutritionData) ∧
      scenarioData2 = alSet scenarioData a.chatId (alSet dates "D"
        (entries.set i (applyCorrectionPatch e patchCoke "T2"))) :=
  c2_correction_update_effects.2 scenarioAssocs scenarioData "10" patchCoke
    "D" "T2" scenarioData2 scenario_update_eq

/-! ### Claim C3 -/

theorem scenario_first_correction :
    processCorrection scenarioAssocs scenarioData "10" "500ml coke" "D" "T2"
      = (.updatedOk, scenarioData2, scenarioAssocs) := by
  have hp : parseUserCorrection "500ml coke" = patchCoke := parse_500ml_coke_eq
  simp only [processCorrection, hp, scenario_update_eq]

/-- C3 is false as stated: the scenario's first correction succeeds and does
leave the association present and unchanged (it still resolves), but a
second correction to the same message id does *not* successfully update -
it matches against the original snapshot, whose values the first correction
overwrote, and reports could-not-find. -/
theorem c3_counterexample_second_correction_fails :
    processCorrection scenarioAssocs scenarioData "10" "500ml coke" "D" "T2"
      = (.updatedOk, scenarioData2, scenarioAssocs) ∧
    resolveAssociation scenarioAssocs "10"
      = some ⟨"A", pizzaAnalysis, "T1"⟩ ∧
    (processCorrection scenarioAssocs scenarioData2 "10" "coffee 200ml"
        "D" "T3").1
      = .couldNotFindOriginal := by
  refine ⟨scenario_first_correction, ?_, ?_⟩
  · rw [scenarioAssocs_eq]
    simp [resolveAssociation, alGet]
  · have hp : parseUserCorrection "coffee 200ml" = patchCoffee :=
      parse_coffee_200ml_eq
    rw [scenarioAssocs_eq]
    simp [processCorrection, hp, updateNutritionByMessageId, alGet,
      scenarioData2, updateFirstMatch, entryMatchesSnapshot, correctedEntry,
      pizzaAnalysis]

/-- C3 amended: an association is never written by the correction path -
after every correction (successful or not) the association store is
unchanged, so the association still resolves - and it is deleted exactly by
a successful removal; but a second correction to the same message matches
the *original* snapshot, so when the first correction changed the matched
food name of the sole matching entry, the second correction reports
not-found instead of updating. -/
theorem c3_association_survives_corrections :
    (∀ (assocs : Associations) (data : NutritionData)
       (messageId text today now : String),
      (processCorrection assocs data messageId text today now).2.2 = assocs) ∧
    (∀ (assocs : Associations) (data : NutritionData) (messageId today : String),
      (∀ (removed : JsFood) (d2 : NutritionData) (a2 : Associations),
        handleRemovalCommand assocs data messageId today
            = (.removedOk removed, d2, a2) →
        (assocs.map Prod.fst).Nodup → alGet a2 messageId = none) ∧
      (∀ out d2 a2,
        handleRemovalCommand assocs data messageId today = (out, d2, a2) →
        (∀ r, out ≠ .removedOk r) → a2 = assocs)) ∧
    (∀ (assocs : Associations) (data : NutritionData) (messageId : String)
       (patch1 patch2 : Correction) (today now now2 : String)
       (d2 : NutritionData) (a : Assoc) (dates : List (String × List JsFood))
       (e : JsFood),
      alGet assocs messageId = some a →
      alGet data a.chatId = some dates →
      alGet dates today = some [e] →
      patch1.food_name ≠ a.nutritionData.food_name →
      updateNutritionByMessageId assocs data messageId patch1 today now
          = .updated d2 →
      updateNutritionByMessageId assocs d2 messageId patch2 today now2
          = .notFound) := by
  refine ⟨?_, ?_, ?_⟩
  · intro assocs data messageId text today now
    cases h : updateNutritionByMessageId assocs data messageId
        (parseUserCorrection text) today now <;>
      simp [processCorrection, h]
  · intro assocs data messageId today
    constructor
    · intro removed d2 a2 h hnd
      unfold handleRemovalCommand at h
      cases h1 : alGet assocs messageId with
      | none => simp only [h1] at h; exact absurd h (by simp)
      | some assoc =>
        simp only [h1] at h
        cases h2 : alGet data assoc.chatId with
        | none => simp only [h2] at h; exact absurd h (by simp)
        | some dates =>
          simp only [h2] at h
          cases h3 : alGet dates today with
          | none => simp only [h3] at h; exact absurd h (by simp)
          | some entries =>
            simp only [h3] at h
            cases h4 : removeFirstMatch entries assoc.nutritionData with
            | none => simp only [h4] at h; exact absurd h (by simp)
            | some p =>
              simp only [h4, Prod.mk.injEq] at h
              rw [← h.2.2]
              exact alGet_alDelete_self assocs messageId hnd
    · intro out d2 a2 h hne
      unfold handleRemovalCommand at h
      cases h1 : alGet assocs messageId with
      | none => simp only [h1, Prod.mk.injEq] at h; exact h.2.2.symm
      | some assoc =>
        simp only [h1] at h
        cases h2 : alGet data assoc.chatId with
        | none => simp only [h2, Prod.mk.injEq] at h; exact h.2.2.symm
        | some dates =>
          simp only [h2] at h
          cases h3 : alGet dates today with
          | none => simp only [h3, Prod.mk.injEq] at h; exact h.2.2.symm
          | some entries =>
            simp only [h3] at h
            cases h4 : removeFirstMatch entries assoc.nutritionData with
            | none => simp only [h4, Prod.mk.injEq] at h; exact h.2.2.symm
            | some p =>
              simp only [h4, Prod.mk.injEq] at h
              exact absurd (h.1.symm) (hne p.1)
  · intro assocs data messageId patch1 patch2 today now now2 d2 a dates e
      h1 h2 h3 hneq hupd
    unfold updateNutritionByMessageId at hupd
    simp only [h1, h2, h3] at hupd
    by_cases hm : entryMatchesSnapshot e a.nutritionData
    · rw [updateFirstMatch, if_pos hm] at hupd
      simp only [UpdateResult.updated.injEq] at hupd
      have hnm : ¬entryMatchesSnapshot (applyCorrectionPatch e patch1 now)
          a.nutritionData := by
        intro hc
        exact hneq hc.1
      have hu : updateFirstMatch [applyCorrectionPatch e patch1 now]
          a.nutritionData patch2 now2 = none := by
        rw [updateFirstMatch, if_neg hnm]
        rfl
      unfold updateNutritionByMessageId
      rw [← hupd]
      simp only [h1, alGet_alSet_self, hu]
    · rw [updateFirstMatch, if_neg hm] at hupd
      simp [updateFirstMatch] at hupd

/-- Witness for C3 (amended) at the scenario: the second correction after
the food-name-changing first correction reports not-found, and a correction
never touches the association store. -/
theorem c3_association_survives_corrections_witness :
    updateNutritionByMessageId scenarioAssocs scenarioData2 "10" patchCoffee
        "D" "T3"
      = .notFound ∧
    (processCorrection scenarioAssocs scenarioData "10" "500ml coke"
        "D" "T2").2.2 = scenarioAssocs := by
  constructor
  · refine c3_association_survives_corrections.2.2 scenarioAssocs scenarioData
      "10" patchCoke patchCoffee "D" "T2" "T3" scenarioData2
      ⟨"A", pizzaAnalysis, "T1"⟩ [("D", [entry0])] entry0 ?_ ?_ ?_
      (by decide) scenario_update_eq
    · rw [scenarioAssocs_eq]; simp [alGet]
    · rw [scenarioData_eq]; simp [alGet]
    · simp [alGet]
  · exact c3_association_survives_corrections.1 scenarioAssocs scenarioData
      "10" "500ml coke" "D" "T2"

/-! ### Claim C5 -/

/-- All six goal values nonzero (the degenerate zero-goal divisions are the
acknowledged `§4.2` tolerance and are excluded by hypothesis). -/
def goalsNonzero (g : Goals) : Prop :=
  g.calories ≠ 0 ∧ g.protein ≠ 0 ∧ g.carbs ≠ 0 ∧ g.fat ≠ 0 ∧ g.fiber ≠ 0 ∧
    g.hydration ≠ 0

/-- Totals exactly equal to the goals in every category. -/
def totalsOfGoals (g : Goals) : DashTotals :=
  ⟨g.calories, g.protein, g.carbs, g.fat, g.fiber, g.hydration⟩

/-- Totals at the fraction `c` of every goal. -/
def scaleTotals (c : ℚ) (g : Goals) : DashTotals :=
  ⟨c * g.calories, c * g.protein, c * g.carbs, c * g.fat, c * g.fiber,
    c * g.hydration⟩

/-- All-zero dashboard totals. -/
def zeroDash : DashTotals := ⟨0, 0, 0, 0, 0, 0⟩

theorem score_at_goals (g : Goals) (hg : goalsNonzero g) :
    leaderboardScore (totalsOfGoals g) g = 1000 := by
  obtain ⟨h1, h2, h3, h4, h5, h6⟩ := hg
  simp only [leaderboardScore, percentagesOf, avgDeviationOf, totalsOfGoals,
    div_self h1, div_self h2, div_self h3, div_self h4, div_self h5,
    div_self h6]
  norm_num [jsRound, jsMax0]

theorem score_at_ninety_percent (g : Goals) (hg : goalsNonzero g) :
    leaderboardScore (scaleTotals (9/10) g) g = 900 := by
  obtain ⟨h1, h2, h3, h4, h5, h6⟩ := hg
  simp only [leaderboardScore, percentagesOf, avgDeviationOf, scaleTotals,
    mul_div_assoc, div_self h1, div_self h2, div_self h3, div_self h4,
    div_self h5, div_self h6, mul_one]
  rw [show |(9 : ℚ)/10 - 1| = 1/10 from by
    rw [abs_of_nonpos (by norm_num)]; norm_num]
  norm_num [jsRound, jsMax0]

theorem score_at_zero_totals (g : Goals) (_hg : goalsNonzero g) :
    leaderboardScore zeroDash g = 0 := by
  simp only [leaderboardScore, percentagesOf, avgDeviationOf, zeroDash,
    zero_div]
  rw [show |(0 : ℚ) - 1| = 1 from by rw [abs_of_nonpos (by norm_num)]; norm_num]
  norm_num [jsRound, jsMax0]

theorem leaderboardRow_eq_some (users : Users) (goals : Goals) (today : String)
    (kv : String × List (String × List JsFood)) (u : LBUser)
    (h : leaderboardRow users goals today kv = some u) :
    u.score = leaderboardScore u.totals u.goals ∧ 0 < u.score ∧
      u.userId = kv.1 ∧ u.goals = goals ∧
      ∃ entries, alGet kv.2 today = some entries ∧
        u.totals = dashSumList entries := by
  unfold leaderboardRow at h
  cases he : alGet kv.2 today with
  | none => simp only [he] at h; exact absurd h (by simp)
  | some entries =>
    simp only [he] at h
    by_cases hs : 0 < leaderboardScore (dashSumList entries) goals
    · rw [if_pos hs, Option.some.injEq] at h
      subst h
      exact ⟨rfl, hs, rfl, rfl, entries, rfl, rfl⟩
    · rw [if_neg hs] at h
      exact absurd h (by simp)

theorem mem_leaderboardFor (nutrition : NutritionData) (users : Users)
    (goals : Goals) (today : String) (r : RankedUser)
    (h : r ∈ leaderboardFor nutrition users goals today) :
    r.toLBUser ∈ nutrition.filterMap (leaderboardRow users goals today) := by
  unfold leaderboardFor at h
  obtain ⟨p, hp, hr⟩ := List.mem_map.mp h
  have h2 : p.2 ∈ (nutrition.filterMap
      (leaderboardRow users goals today)).mergeSort
        (fun a b => decide (b.score ≤ a.score)) :=
    snd_mem_of_mem_enumFrom _ 0 p hp
  have h3 := (List.mergeSort_perm
    (nutrition.filterMap (leaderboardRow users goals today))
    (fun a b => decide (b.score ≤ a.score))).mem_iff.mp h2
  rw [← hr]
  exact h3

/-- C5: the leaderboard's scoring and ranking.  Every ranked entry's score is
`max(0, round(1000 - avgDeviation * 1000))` with `avgDeviation` the mean of
the six `|total/goal - 1|` deviations, and only strictly positive scores are
ranked; totals equal to the goals score 1000 (rank 1 when sole entrant),
totals at 90 percent of every goal score 900, all-zero totals against
nonzero goals score 0 and the scope is dropped from the ranked output; the
output is sorted by score descending with `rank = position + 1`. -/
theorem c5_leaderboard_scoring :
    (∀ (t : DashTotals) (g : Goals),
      leaderboardScore t g
        = max 0 (round ((1000 : ℚ)
            - (|t.calories / g.calories - 1| + |t.protein / g.protein - 1|
                + |t.carbs / g.carbs - 1| + |t.fat / g.fat - 1|
                + |t.fiber / g.fiber - 1| + |t.hydration / g.hydration - 1|)
              / 6 * 1000))) ∧
    (∀ g : Goals, goalsNonzero g →
      leaderboardScore (totalsOfGoals g) g = 1000) ∧
    (∀ g : Goals, goalsNonzero g →
      leaderboardScore (scaleTotals (9/10) g) g = 900) ∧
    (∀ g : Goals, goalsNonzero g → leaderboardScore zeroDash g = 0) ∧
    (∀ (chat : String) (entries : List JsFood) (users : Users) (g : Goals)
       (today : String), goalsNonzero g →
      dashSumList entries = totalsOfGoals g →
      (leaderboardFor [(chat, [(today, entries)])] users g today).map
          (fun r => (r.userId, r.rank, r.score)) = [(chat, 1, 1000)]) ∧
    (∀ (nutrition : NutritionData) (users : Users) (g : Goals)
       (today chat : String) (dates : List (String × List JsFood))
       (entries : List JsFood), (nutrition.map Prod.fst).Nodup →
      goalsNonzero g → alGet nutrition chat = some dates →
      alGet dates today = some entries → dashSumList entries = zeroDash →
      chat ∉ (leaderboardFor nutrition users g today).map (fun r => r.userId)) ∧
    (∀ (nutrition : NutritionData) (users : Users) (g : Goals) (today : String),
      ((leaderboardFor nutrition users g today).map
          (fun r => r.score)).Pairwise (· ≥ ·) ∧
      (leaderboardFor nutrition users g today).map (fun r => r.rank)
        = List.range' 1 (leaderboardFor nutrition users g today).length) ∧
    (∀ (nutrition : NutritionData) (users : Users) (g : Goals) (today : String)
       (r : RankedUser), r ∈ leaderboardFor nutrition users g today →
      0 < r.score ∧ r.score = leaderboardScore r.totals r.goals ∧
        r.goals = g) := by
  refine ⟨?_, score_at_goals, score_at_ninety_percent, score_at_zero_totals,
    ?_, ?_, ?_, ?_⟩
  · intro t g
    rw [leaderboardScore, jsMax0, jsRound_eq_round]
    rfl
  · intro chat entries users g today hg hsum
    have hs : leaderboardScore (dashSumList entries) g = 1000 := by
      rw [hsum]; exact score_at_goals g hg
    have hrow : leaderboardRow users g today (chat, [(today, entries)])
        = some ⟨chat, maskUserName (displayNameFor users chat),
            leaderboardScore (dashSumList entries) g,
            percentagesOf (dashSumList entries) g, dashSumList entries, g⟩ := by
      unfold leaderboardRow
      simp only [show alGet [(today, entries)] today = some entries from by
        simp [alGet]]
      rw [if_pos (by rw [hs]; norm_num)]
    unfold leaderboardFor
    simp only [List.filterMap_cons, hrow, List.filterMap_nil]
    rw [show List.mergeSort [(⟨chat, maskUserName (displayNameFor users chat),
        leaderboardScore (dashSumList entries) g,
        percentagesOf (dashSumList entries) g, dashSumList entries, g⟩ : LBUser)]
        (fun a b => decide (b.score ≤ a.score))
      = [⟨chat, maskUserName (displayNameFor users chat),
          leaderboardScore (dashSumList entries) g,
          percentagesOf (dashSumList entries) g, dashSumList entries, g⟩] from by
      simp [List.mergeSort]]
    simp [List.enum_cons, hs]
  · intro nutrition users g today chat dates entries hnd hg hdates hentries
      hzero hmem
    obtain ⟨r, hr, hchat⟩ := List.mem_map.mp hmem
    have hlb := mem_leaderboardFor nutrition users g today r hr
    obtain ⟨kv, hkv, hrow⟩ := List.mem_filterMap.mp hlb
    obtain ⟨hsc, hpos, hid, hgoals, entries2, he2, ht2⟩ :=
      leaderboardRow_eq_some users g today kv r.toLBUser hrow
    have hkv1 : kv.1 = chat := by rw [← hid]; exact hchat
    have hkv2 : alGet nutrition chat = some kv.2 := by
      rw [← hkv1]
      exact alGet_of_mem_nodup nutrition kv.1 kv.2 hnd
        (by rw [show (kv.1, kv.2) = kv from rfl]; exact hkv)
    have hdeq : kv.2 = dates := by
      have := hkv2.symm.trans hdates
      exact Option.some.inj this
    have hent2 : entries2 = entries := by
      rw [hdeq] at he2
      exact Option.some.inj (he2.symm.trans hentries)
    have hscore0 : r.toLBUser.score = 0 := by
      rw [hsc, ht2, hent2, hzero, hgoals]
      exact score_at_zero_totals g hg
    rw [hscore0] at hpos
    exact absurd hpos (by norm_num)
  · intro nutrition users g today
    constructor
    · unfold leaderboardFor
      rw [List.map_map]
      have h1 : ((fun r : RankedUser => r.score) ∘ fun p : ℕ × LBUser =>
          ({ toLBUser := p.2, rank := p.1 + 1,
             details := detailsOf p.2.percentages } : RankedUser))
          = (fun u : LBUser => u.score) ∘ Prod.snd := rfl
      rw [h1, ← List.map_map, List.enum_map_snd]
      have hsorted := @List.sorted_mergeSort LBUser
        (fun a b : LBUser => decide (b.score ≤ a.score))
        (fun a b c hab hbc => by
          simp only [decide_eq_true_eq] at *
          omega)
        (fun a b => by
          simp only [Bool.or_eq_true, decide_eq_true_eq]
          exact le_total b.score a.score)
        (nutrition.filterMap (leaderboardRow users g today))
      rw [List.pairwise_map]
      exact hsorted.imp (fun h => by
        simpa [ge_iff_le, decide_eq_true_eq] using h)
    · unfold leaderboardFor
      rw [List.map_map, List.length_map, List.enum_length]
      have h1 : ((fun r : RankedUser => r.rank) ∘ fun p : ℕ × LBUser =>
          ({ toLBUser := p.2, rank := p.1 + 1,
             details := detailsOf p.2.percentages } : RankedUser))
          = (fun n => n + 1) ∘ Prod.fst := rfl
      rw [h1, ← List.map_map, List.enum_map_fst, List.range'_eq_map_range]
      exact List.map_congr_left (fun a _ => by omega)
  · intro nutrition users g today r hr
    obtain ⟨kv, -, hrow⟩ := List.mem_filterMap.mp
      (mem_leaderboardFor nutrition users g today r hr)
    obtain ⟨hsc, hpos, -, hg, -⟩ :=
      leaderboardRow_eq_some users g today kv r.toLBUser hrow
    exact ⟨hpos, hsc, hg⟩

/-- A single entry whose values meet the default goals exactly. -/
def goalsMeal : JsFood :=
  ⟨none, "Day", some 2000, some 150, some 250, some 70, some 25, some 2000,
    "whole day", "high"⟩

/-- Witness for C5 at the default goals and a concrete sole entrant. -/
theorem c5_leaderboard_scoring_witness :
    leaderboardScore (totalsOfGoals defaultGoals) defaultGoals = 1000 ∧
    leaderboardScore zeroDash defaultGoals = 0 ∧
    (leaderboardFor [("A", [("D", [goalsMeal])])] [] defaultGoals "D").map
        (fun r => (r.userId, r.rank, r.score)) = [("A", 1, 1000)] := by
  have hg : goalsNonzero defaultGoals := by
    norm_num [goalsNonzero, defaultGoals]
  refine ⟨c5_leaderboard_scoring.2.1 defaultGoals hg,
    c5_leaderboard_scoring.2.2.2.1 defaultGoals hg,
    c5_leaderboard_scoring.2.2.2.2.1 "A" [goalsMeal] [] defaultGoals "D" hg ?_⟩
  simp [dashSumList, dashAccum, goalsMeal, totalsOfGoals, defaultGoals]
